import Mathlib

set_option maxRecDepth 100000

/-!
Verification of the value formatter and reporting pass in
`src/halmos/analyze_out.py` against its specification.

The Python functions are shallowly embedded: Python strings become `String`
(with operations carried out on their `List Char` data), Python's arbitrary
precision integers become `Nat`/`Int`, Python dictionaries become association
lists in insertion order, and a raised exception becomes `Except.error`.
-/

namespace AnalyzeOut

/-- Embeds Python's substring test `needle in hay` (`str.__contains__`):
true iff `needle` occurs contiguously in `hay`. -/
def substr (needle : List Char) : List Char → Bool
  | [] => needle.isEmpty
  | c :: rest => needle.isPrefixOf (c :: rest) || substr needle rest

/-- Embeds `solidity_type.replace("int", "")` (line 34) at its only call site:
removes every non-overlapping occurrence of `"int"`, scanning left to right,
exactly as Python's `str.replace` does for this fixed three-character pattern. -/
def removeInt : List Char → List Char
  | [] => []
  | [c] => [c]
  | [c1, c2] => [c1, c2]
  | c1 :: c2 :: c3 :: rest =>
    if c1 = 'i' ∧ c2 = 'n' ∧ c3 = 't' then removeInt rest
    else c1 :: removeInt (c2 :: c3 :: rest)

/-- Decimal value of a digit string, most significant digit first. -/
def decValue (l : List Char) : Nat :=
  l.foldl (fun a c => 10 * a + (c.toNat - 48)) 0

/-- The whitespace characters below code point 128 that CPython's `int()`
strips from both ends of its argument: tab, newline, vertical tab, form feed,
carriage return and space (the C `isspace` set; the 0x1c-0x1f separators are
`str.isspace` whitespace but `int()` rejects them). -/
def pyWs (c : Char) : Bool :=
  ([' ', '\t', '\n', '\r', '\x0b', '\x0c'] : List Char).contains c

/-- Strip `pyWs` characters from both ends, Python's whitespace stripping
inside `int()`. -/
def stripWs (l : List Char) : List Char :=
  ((l.dropWhile pyWs).reverse.dropWhile pyWs).reverse

/-- PEP 515 digit grouping as accepted by `int()` for base 10: one or more
ASCII digits with single underscores allowed only between two digits. -/
def usDigits : List Char → Bool
  | [] => false
  | [c] => c.isDigit
  | c :: c2 :: rest =>
    if c2 = '_' then c.isDigit && usDigits rest
    else c.isDigit && usDigits (c2 :: rest)

/-- The sign-and-digits part of `int()` after whitespace stripping: an
optional single `+`/`-` followed by a PEP 515 digit group; the value ignores
the grouping underscores. -/
def pyIntCore : List Char → Option Int
  | [] => none
  | c :: rest =>
    if c = '-' then
      if usDigits rest then
        some (-(decValue (rest.filter fun x => x != '_') : Int))
      else none
    else if c = '+' then
      if usDigits rest then
        some (decValue (rest.filter fun x => x != '_') : Int)
      else none
    else if usDigits (c :: rest) then
      some (decValue ((c :: rest).filter fun x => x != '_') : Int)
    else none

/-- Models CPython's `int(s)` for base 10: surrounding whitespace is
stripped, then an optional sign and an underscore-grouped ASCII digit string
parse to their value; anything else raises `ValueError` (here: `none`). This
is exact for strings of characters below code point 128; CPython additionally
accepts non-ASCII decimal digits (Unicode category Nd) and non-ASCII
whitespace, which this embedding does not represent — the one theorem whose
hypotheses quantify over failing inputs (C5) therefore restricts its tag
remainder to ASCII. -/
def pyIntAux (l : List Char) : Option Int := pyIntCore (stripWs l)

/-- See `pyIntAux`, to which parsing is delegated character by character. -/
def pyInt? (s : String) : Option Int := pyIntAux s.data

/-- Embeds the Python format specifier `f"{value:0{width}x}"`: lowercase
hexadecimal digits of `value` (via the fuel-based, hence kernel-computable,
`Nat.toDigits 16`), left padded with `'0'` to a minimum of `width` characters. -/
def pyHexPad (width value : Nat) : String :=
  String.mk (List.replicate (width - (Nat.toDigits 16 value).length) '0' ++
    Nat.toDigits 16 value)

/-- The static selector table of `decode_selector` (lines 7-13). -/
def selectors : List (String × String) :=
  [("0xbb4fc585", "openMakerPosition"),
   ("0x57ce6547", "openTakerPosition"),
   ("0xecf6eca0", "addMargin"),
   ("0xd91f66f8", "closePosition"),
   ("0x6bb00ff2", "increaseCardinalityCap")]

/-- Embeds `decode_selector` (lines 5-14): looks up the first 10 characters of
the argument in the table and, like `dict.get(key, default)`, falls back to the
argument itself on a miss. -/
def decode_selector (selector_bytes : String) : String :=
  (selectors.lookup (String.mk (selector_bytes.data.take 10))).getD selector_bytes

/-- Diagnostic standing for the `ValueError` raised by `int()` on a malformed
literal; the exception is modelled as an `Except.error` result. -/
def intParseError : String := "ValueError: invalid literal for int() with base 10"

/-- Marker for the one modelling boundary in `format_value`: when the parsed
bit width is negative, Python's `2 ** (bit_size - 1)` is a `float` and for a
nonzero value the result would be a floating-point string, which this integer
embedding does not represent. No claim exercises a negative width. -/
def floatNotModelled : String := "float arithmetic for negative bit width not modelled"

/-- Embeds `format_value` (lines 17-39). The branch structure mirrors the
Python `if`/`elif` chain. In the signed-integer branch, for a parsed width
`w >= 1` the Python test `value >= 2 ** (w - 1)` is integer arithmetic and is
embedded verbatim; for `w = 0` Python compares against the float `0.5`, which
on integer `value` is equivalent to `1 <= value`, and Nat subtraction gives
`2 ^ (0 - 1) = 1`, so the embedded test agrees there as well. -/
def format_value (value : Nat) (solidity_type : String) (var_name : String) :
    Except String String :=
  if solidity_type = "address" then .ok ("0x" ++ pyHexPad 40 value)
  else if solidity_type = "bytes32" then .ok ("0x" ++ pyHexPad 64 value)
  else if solidity_type = "bytes4" then
    let selector_hex := "0x" ++ pyHexPad 8 value
    if var_name = "selector" then
      .ok (selector_hex ++ " (" ++ decode_selector selector_hex ++ ")")
    else .ok selector_hex
  else if solidity_type = "bool" then .ok (if value = 1 then "true" else "false")
  else if substr "uint".data solidity_type.data then .ok (Nat.repr value)
  else if substr "int".data solidity_type.data then
    match pyInt? (String.mk (removeInt solidity_type.data)) with
    | none => .error intParseError
    | some bit_size =>
      if bit_size < 0 then
        if value = 0 then .ok "0" else .error floatNotModelled
      else
        if 2 ^ (bit_size.toNat - 1) ≤ value then
          .ok (Int.repr ((value : Int) - 2 ^ bit_size.toNat))
        else .ok (Nat.repr value)
  else .ok (Nat.repr value)

/-- Numeric value of a lowercase hexadecimal digit character. -/
def hexDigitVal (c : Char) : Nat :=
  if c.isDigit then c.toNat - 48 else c.toNat - 87

/-- Numeric value denoted by a big-endian string of hexadecimal digits. -/
def hexVal (l : List Char) : Nat :=
  l.foldl (fun a c => 16 * a + hexDigitVal c) 0

/-- Recognizes the characters Python emits for the `x` format code:
decimal digits and the lowercase letters `a`-`f`. -/
def isLowerHex (c : Char) : Bool :=
  c.isDigit || ('a' ≤ c && c ≤ 'f')

/-- The three display buckets of the reporting pass. -/
inductive Bucket
  | parameters
  | state
  | other
deriving DecidableEq

/-- Embeds the bucketing rules of `analyze_halmos_output` (lines 82-95),
evaluated in order with first match winning; returns the bucket together with
the key under which the value is stored. -/
def bucketOf (display_name : String) : Bucket × String :=
  if "p_".data.isPrefixOf display_name.data then
    (.parameters, String.mk (display_name.data.drop 2))
  else if "block.".data.isPrefixOf display_name.data then
    (.state, display_name)
  else if substr "maker".data display_name.data ||
      substr "taker".data display_name.data ||
      substr "creator".data display_name.data ||
      substr "liquidator".data display_name.data then
    if substr "maker.".data display_name.data ||
        substr "taker.".data display_name.data then
      (.parameters, display_name)
    else (.state, display_name)
  else (.other, display_name)

/-- Lexicographic comparison of character lists by code point, Python's
string ordering. -/
def charListLe : List Char → List Char → Bool
  | [], _ => true
  | _ :: _, [] => false
  | a :: as, b :: bs =>
    if a < b then true else if b < a then false else charListLe as bs

/-- Python `<=` on strings, the order used by `sorted` on bucket keys. -/
def strLe (a b : String) : Bool := charListLe a.data b.data

/-- Insertion into a Python dict modelled as an association list in insertion
order: an existing key keeps its position and gets the new value, a new key is
appended at the end. Entries are `(key, formatted value, solidity type)`. -/
def dictInsert (k fv ty : String) :
    List (String × String × String) → List (String × String × String)
  | [] => [(k, fv, ty)]
  | e :: t => if e.1 = k then (k, fv, ty) :: t else e :: dictInsert k fv ty t

def insertSorted (p : String × String × String) :
    List (String × String × String) → List (String × String × String)
  | [] => [p]
  | q :: t => if strLe p.1 q.1 then p :: q :: t else q :: insertSorted p t

/-- Embeds Python's `sorted(d.items())` for a dict with string keys: the
entries ordered ascending by key (keys in a dict are distinct, so the
tie-breaking of `sorted` on the values never comes into play). -/
def sortByKey (l : List (String × String × String)) :
    List (String × String × String) :=
  l.foldr insertSorted []

/-- A typed value record inside a model (the JSON object stored under one
internal variable name); every field may be absent, `dict.get` supplies the
default. -/
structure VarData where
  variable_name : Option String
  solidity_type : Option String
  value : Option Nat

/-- A counterexample model: the optional validity flag and the mapping from
internal variable name to typed value, in insertion order. -/
structure Model where
  is_valid : Option Bool
  model : List (String × VarData)

/-- One test result record. The numeric triples `num_paths` and `time` are
printed verbatim by Python's `str` of a list; they are modelled as integer
lists (the reports under test carry integers there, and no claim exercises
float rendering). -/
structure TestResult where
  name : String
  exitcode : Int
  num_models : Nat
  num_paths : List Int
  time : List Int
  num_bounded_loops : Int
  models : Option (List Model)

/-- The top-level report: the `test_results` mapping from contract name to
test results, in insertion order, and the overall exit code. -/
structure Report where
  test_results : List (String × List TestResult)
  exitcode : Int

/-- One `print(s)` call: the text plus the trailing newline. -/
def line (s : String) : String := s ++ "\n"

def eq80 : String := String.mk (List.replicate 80 '=')

def dash78 : String := String.mk (List.replicate 78 '-')

/-- Python's `str` of a list of integers, e.g. `"[5, 6, 7]"`. -/
def pyStrIntList (l : List Int) : String :=
  "[" ++ String.intercalate ", " (l.map Int.repr) ++ "]"

/-- Embeds lines 74-77: the three `var_data.get(...)` calls with their
defaults, returning `(display_name, solidity_type, value)`. -/
def extractVar (var_name : String) (vd : VarData) : String × String × Nat :=
  (vd.variable_name.getD var_name, vd.solidity_type.getD "unknown",
    vd.value.getD 0)

/-- Embeds the bucket-filling loop over one model's entries (lines 74-95),
threading the three dicts; a formatting failure propagates. -/
def bucketize : List (String × VarData) →
    List (String × String × String) → List (String × String × String) →
    List (String × String × String) →
    Except String (List (String × String × String) ×
      List (String × String × String) × List (String × String × String))
  | [], params, state, other => .ok (params, state, other)
  | (var_name, vd) :: rest, params, state, other =>
    match format_value (extractVar var_name vd).2.2 (extractVar var_name vd).2.1
        (extractVar var_name vd).1 with
    | .error msg => .error msg
    | .ok formatted =>
      match bucketOf (extractVar var_name vd).1 with
      | (.parameters, k) =>
        bucketize rest (dictInsert k formatted (extractVar var_name vd).2.1 params)
          state other
      | (.state, k) =>
        bucketize rest params
          (dictInsert k formatted (extractVar var_name vd).2.1 state) other
      | (.other, k) =>
        bucketize rest params state
          (dictInsert k formatted (extractVar var_name vd).2.1 other)

/-- Embeds lines 97-110: a non-empty bucket prints a blank line, its title,
and one line per entry, sorted by key. -/
def bucketLines (title : String) : List (String × String × String) → String
  | [] => ""
  | l => line ("\n" ++ title) ++
      String.join ((sortByKey l).map fun e =>
        line (e.1 ++ " = " ++ e.2.1 ++ " (" ++ e.2.2 ++ ")"))

/-- Embeds the body printed for one valid model (lines 68-110). -/
def modelSection (i : Nat) (m : Model) : Except String String :=
  match bucketize m.model [] [] [] with
  | .error e => .error e
  | .ok (params, state, other) =>
    .ok (line ("\n[" ++ Nat.repr i ++ "]") ++
      bucketLines "Parameters:" params ++
      bucketLines "State:" state ++
      bucketLines "Other:" other)

/-- Embeds `for i, model in enumerate(test["models"], 1)` with the
`is_valid` skip (lines 64-66): an invalid model is skipped but still advances
the index. -/
def modelsLoop : Nat → List Model → Except String String
  | _, [] => .ok ""
  | i, m :: rest =>
    if m.is_valid.getD false then
      match modelSection i m with
      | .error e => .error e
      | .ok s =>
        match modelsLoop (i + 1) rest with
        | .error e => .error e
        | .ok r => .ok (s ++ r)
    else modelsLoop (i + 1) rest

/-- The fixed-field block printed for every test (lines 52-59). -/
def testHeader (t : TestResult) : String :=
  "Test: " ++ t.name ++ "\n" ++
  "Exit Code: " ++ Int.repr t.exitcode ++ "\n" ++
  "Num Counterexamples: " ++ Nat.repr t.num_models ++ "\n" ++
  "Num Paths: " ++ pyStrIntList t.num_paths ++ "\n" ++
  "Time: " ++ pyStrIntList t.time ++ "s\n" ++
  "Bounded Loops: " ++ Int.repr t.num_bounded_loops ++ "\n"

/-- Embeds the per-test body (lines 51-112): the header always, and the
counterexample section exactly when `num_models > 0` and the `models` key is
present. -/
def testSection (t : TestResult) : Except String String :=
  if 0 < t.num_models ∧ t.models.isSome then
    match modelsLoop 1 (t.models.getD []) with
    | .error e => .error e
    | .ok body =>
      .ok (line (testHeader t) ++ line ("Counterexamples:\n" ++ dash78) ++
        body ++ line ("\n" ++ dash78))
  else .ok (line (testHeader t))

def testsLoop : List TestResult → Except String String
  | [] => .ok ""
  | t :: rest =>
    match testSection t with
    | .error e => .error e
    | .ok s =>
      match testsLoop rest with
      | .error e => .error e
      | .ok r => .ok (s ++ r)

def contractsLoop : List (String × List TestResult) → Except String String
  | [] => .ok ""
  | (contract, tests) :: rest =>
    match testsLoop tests with
    | .error e => .error e
    | .ok s =>
      match contractsLoop rest with
      | .error e => .error e
      | .ok r => .ok (line ("\nContract: " ++ contract ++ "\n") ++ s ++ r)

/-- Embeds `analyze_halmos_output` (lines 42-115) on an already-parsed
report, accumulating everything the Python function prints to stdout; file
loading and JSON parsing (lines 43-44) are outside the model. -/
def analyze_halmos_output (data : Report) : Except String String :=
  match contractsLoop data.test_results with
  | .error e => .error e
  | .ok body =>
    .ok (line ("Test Results Summary:\n" ++ eq80) ++ body ++
      line ("\n" ++ eq80) ++ line ("Overall Exit Code: " ++ Int.repr data.exitcode))

/-- The printed text of a run, with a failed run collapsed to its diagnostic. -/
def outputOf (r : Report) : String :=
  match analyze_halmos_output r with
  | .ok s => s
  | .error e => e

/-- Whether a run succeeded. -/
def runOk (r : Report) : Bool :=
  match analyze_halmos_output r with
  | .ok _ => true
  | .error _ => false

/-- Python substring test on `String`s. -/
def containsStr (needle hay : String) : Bool := substr needle.data hay.data

/-- Minimal report for C7: one contract, one test, zero counterexample
models. Field order: name, exitcode, num_models, num_paths, time,
num_bounded_loops, models. -/
def reportC7 : Report :=
  ⟨[("ExampleContract",
    [⟨"test_alpha", 0, 0, [5, 6, 7], [3, 4, 5], 0, some []⟩])], 0⟩

/-- Report for C8: one valid model whose single entry has none of the
expected keys. -/
def reportC8 : Report :=
  ⟨[("ExampleContract",
    [⟨"test_beta", 0, 1, [5, 6, 7], [3, 4, 5], 0,
      some [⟨some true, [("foo", ⟨none, none, none⟩)]⟩]⟩])], 0⟩

/-- An invalid model carrying a variable whose name must never be printed. -/
def invalidModel : Model := ⟨some false, [("ghostVar", ⟨none, none, none⟩)]⟩

/-- A valid model with one unsigned value. -/
def validModel : Model := ⟨some true, [("v1", ⟨none, some "uint256", some 7⟩)]⟩

/-- Report for C9: a test whose first model is invalid and second valid. -/
def reportC9 : Report :=
  ⟨[("ExampleContract",
    [⟨"test_gamma", 0, 2, [5, 6, 7], [8, 9, 9], 0,
      some [invalidModel, validModel]⟩])], 0⟩

/-- Companion report for C9: positive counterexample count and a models
sequence whose only entry lacks the validity flag entirely. -/
def reportC9b : Report :=
  ⟨[("ExampleContract",
    [⟨"test_delta", 0, 1, [5, 6, 7], [8, 9, 9], 0, some [⟨none, []⟩]⟩])], 0⟩

theorem toDigitsCore16_eq (fuel : Nat) :
    ∀ (n : Nat) (ds : List Char), 0 < n → n < fuel →
      Nat.toDigitsCore 16 fuel n ds =
        ((Nat.digits 16 n).map Nat.digitChar).reverse ++ ds := by
  induction fuel with
  | zero => intro n ds h1 h2; omega
  | succ fuel ih =>
    intro n ds h1 h2
    rw [Nat.toDigitsCore]
    by_cases h : n / 16 = 0
    · have hlt : n < 16 := by omega
      rw [Nat.digits_def' (by norm_num : 1 < 16) h1, h]
      simp [Nat.mod_eq_of_lt hlt]
    · have hpos : 0 < n / 16 := Nat.pos_of_ne_zero h
      have hfuel : n / 16 < fuel := by
        have h16 : n / 16 < n := Nat.div_lt_self h1 (by norm_num)
        omega
      simp only [h, if_false]
      rw [ih (n / 16) _ hpos hfuel]
      rw [Nat.digits_def' (by norm_num : 1 < 16) h1]
      simp [List.reverse_cons, List.append_assoc]

theorem toDigits16_eq (n : Nat) :
    Nat.toDigits 16 n =
      if n = 0 then ['0'] else ((Nat.digits 16 n).map Nat.digitChar).reverse := by
  rcases Nat.eq_zero_or_pos n with rfl | hn
  · rfl
  · rw [Nat.toDigits, toDigitsCore16_eq (n + 1) n [] hn (Nat.lt_succ_self n)]
    rw [if_neg (by omega), List.append_nil]

theorem toDigits16_length_le {n k : Nat} (hk : 0 < k) (h : n < 16 ^ k) :
    (Nat.toDigits 16 n).length ≤ k := by
  rcases Nat.eq_zero_or_pos n with rfl | hn
  · rw [toDigits16_eq]; simpa using hk
  · have hne : n ≠ 0 := by omega
    rw [toDigits16_eq, if_neg hne, List.length_reverse, List.length_map]
    rw [Nat.digits_len 16 n (by norm_num) hne]
    have := (Nat.lt_pow_iff_log_lt (by norm_num : 1 < 16) hne).mp h
    omega

theorem pyHexPad_length {n k : Nat} (hk : 0 < k) (h : n < 16 ^ k) :
    (pyHexPad k n).length = k := by
  have hl := toDigits16_length_le hk h
  show (List.replicate (k - (Nat.toDigits 16 n).length) '0' ++
      Nat.toDigits 16 n).length = k
  rw [List.length_append, List.length_replicate]
  omega

theorem hexDigitVal_digitChar {d : Nat} (h : d < 16) :
    hexDigitVal (Nat.digitChar d) = d := by
  interval_cases d <;> decide

theorem isLowerHex_digitChar {d : Nat} (h : d < 16) :
    isLowerHex (Nat.digitChar d) = true := by
  interval_cases d <;> decide

theorem hexVal_replicate_zero (m : Nat) (l : List Char) :
    hexVal (List.replicate m '0' ++ l) = hexVal l := by
  show (List.replicate m '0' ++ l).foldl (fun a c => 16 * a + hexDigitVal c) 0 =
    l.foldl (fun a c => 16 * a + hexDigitVal c) 0
  rw [List.foldl_append]
  have hz : List.foldl (fun a c => 16 * a + hexDigitVal c) 0
      (List.replicate m '0') = 0 := by
    induction m with
    | zero => rfl
    | succ m ih =>
      rw [List.replicate_succ, List.foldl_cons]
      have h0 : 16 * 0 + hexDigitVal '0' = 0 := by decide
      rw [h0]
      exact ih
  rw [hz]

theorem foldr_hexdc (L : List Nat) (hL : ∀ d ∈ L, d < 16) :
    List.foldr (fun c a => 16 * a + hexDigitVal c) 0 (L.map Nat.digitChar) =
      Nat.ofDigits 16 L := by
  induction L with
  | nil => simp
  | cons d L ih =>
    rw [List.map_cons, List.foldr_cons,
      ih (fun x hx => hL x (List.mem_cons_of_mem d hx)),
      hexDigitVal_digitChar (hL d (List.mem_cons_self d L)), Nat.ofDigits_cons]
    ring

theorem hexVal_toDigits16 (n : Nat) : hexVal (Nat.toDigits 16 n) = n := by
  rcases Nat.eq_zero_or_pos n with rfl | hn
  · decide
  · rw [toDigits16_eq, if_neg (by omega)]
    show (((Nat.digits 16 n).map Nat.digitChar).reverse).foldl
      (fun a c => 16 * a + hexDigitVal c) 0 = n
    rw [List.foldl_reverse]
    have hstep := foldr_hexdc (Nat.digits 16 n)
      (fun d hd => Nat.digits_lt_base (by norm_num) hd)
    calc List.foldr (fun x y => 16 * y + hexDigitVal x) 0
          ((Nat.digits 16 n).map Nat.digitChar)
        = Nat.ofDigits 16 (Nat.digits 16 n) := hstep
      _ = n := Nat.ofDigits_digits 16 n

theorem hexVal_pyHexPad (k n : Nat) : hexVal (pyHexPad k n).data = n := by
  show hexVal (List.replicate (k - (Nat.toDigits 16 n).length) '0' ++
    Nat.toDigits 16 n) = n
  rw [hexVal_replicate_zero, hexVal_toDigits16]

theorem pyHexPad_lowerHex (k n : Nat) :
    (pyHexPad k n).data.all isLowerHex = true := by
  show (List.replicate (k - (Nat.toDigits 16 n).length) '0' ++
    Nat.toDigits 16 n).all isLowerHex = true
  rw [List.all_append, Bool.and_eq_true]
  constructor
  · rw [List.all_eq_true]
    intro x hx
    rw [List.eq_of_mem_replicate hx]
    decide
  · rcases Nat.eq_zero_or_pos n with rfl | hn
    · decide
    · rw [toDigits16_eq, if_neg (by omega), List.all_reverse, List.all_eq_true]
      intro c hc
      obtain ⟨d, hd, rfl⟩ := List.mem_map.mp hc
      exact isLowerHex_digitChar (Nat.digits_lt_base (by norm_num) hd)

/-- C6: for every `v < 2^160`, the `address` branch yields `0x` followed by
exactly 40 lowercase hexadecimal digits denoting `v`. -/
theorem c6_address_format (v : Nat) (d : String) (hv : v < 2 ^ 160) :
    format_value v "address" d = .ok ("0x" ++ pyHexPad 40 v) ∧
    (pyHexPad 40 v).length = 40 ∧
    (pyHexPad 40 v).data.all isLowerHex = true ∧
    hexVal (pyHexPad 40 v).data = v := by
  refine ⟨rfl, ?_, pyHexPad_lowerHex 40 v, hexVal_pyHexPad 40 v⟩
  exact pyHexPad_length (by norm_num) (by norm_num at hv ⊢; omega)

/-- Witness for C6 at the concrete input `v = 0`. -/
theorem c6_address_format_witness :
    (0 : Nat) < 2 ^ 160 ∧
    (format_value 0 "address" "" = .ok ("0x" ++ pyHexPad 40 0) ∧
      (pyHexPad 40 0).length = 40 ∧
      (pyHexPad 40 0).data.all isLowerHex = true ∧
      hexVal (pyHexPad 40 0).data = 0) :=
  ⟨by norm_num, c6_address_format 0 "" (by norm_num)⟩

theorem format_value_bytes4 (v : Nat) (d : String) :
    format_value v "bytes4" d =
      if d = "selector" then
        .ok (("0x" ++ pyHexPad 8 v) ++ " (" ++
          decode_selector ("0x" ++ pyHexPad 8 v) ++ ")")
      else .ok ("0x" ++ pyHexPad 8 v) := rfl

theorem decode_selector_short (s : String) (h : s.data.length ≤ 10) :
    decode_selector s = (selectors.lookup s).getD s := by
  unfold decode_selector
  rw [List.take_of_length_le h]

theorem bucketOf_p_rule (name : String) (rest : List Char)
    (h : name.data = 'p' :: '_' :: rest) :
    bucketOf name = (.parameters, String.mk rest) := by
  have hp : "p_".data.isPrefixOf name.data = true := by
    rw [h]
    simp [List.isPrefixOf]
  unfold bucketOf
  rw [if_pos hp, h]
  rfl

theorem bucketOf_block_rule (name : String) (rest : List Char)
    (h : name.data = 'b' :: 'l' :: 'o' :: 'c' :: 'k' :: '.' :: rest) :
    bucketOf name = (.state, name) := by
  have hp : ¬ ("p_".data.isPrefixOf name.data = true) := by
    rw [h]
    simp [List.isPrefixOf]
  have hb : "block.".data.isPrefixOf name.data = true := by
    rw [h]
    simp [List.isPrefixOf]
  unfold bucketOf
  rw [if_neg hp, if_pos hb]

theorem bucketOf_actor (name : String)
    (hp : "p_".data.isPrefixOf name.data = false)
    (hb : "block.".data.isPrefixOf name.data = false)
    (ha : (substr "maker".data name.data || substr "taker".data name.data ||
      substr "creator".data name.data ||
      substr "liquidator".data name.data) = true) :
    bucketOf name =
      if substr "maker.".data name.data || substr "taker.".data name.data then
        (Bucket.parameters, name)
      else (Bucket.state, name) := by
  unfold bucketOf
  rw [if_neg (by simp [hp]), if_neg (by simp [hb]), if_pos ha]

theorem bucketOf_other_rule (name : String)
    (hp : "p_".data.isPrefixOf name.data = false)
    (hb : "block.".data.isPrefixOf name.data = false)
    (ha : (substr "maker".data name.data || substr "taker".data name.data ||
      substr "creator".data name.data ||
      substr "liquidator".data name.data) = false) :
    bucketOf name = (.other, name) := by
  unfold bucketOf
  rw [if_neg (by simp [hp]), if_neg (by simp [hb]), if_neg (by simp [ha])]

/-- C3: the bucketing rules, universally in the display name and evaluated in
order with first match winning: a name `p_` + rest goes to parameters keyed by
the stripped rest (whatever else it contains); a name starting `block.` goes
to state; otherwise a name containing `maker`, `taker`, `creator` or
`liquidator` goes to parameters exactly when it also contains `maker.` or
`taker.` and to state otherwise; any remaining name goes to other. The
concrete instances cover the spec examples and the taker/creator cases. -/
theorem c3_bucketing_rules (name : String) (rest : List Char) :
    (name.data = 'p' :: '_' :: rest →
      bucketOf name = (.parameters, String.mk rest)) ∧
    (name.data = 'b' :: 'l' :: 'o' :: 'c' :: 'k' :: '.' :: rest →
      bucketOf name = (.state, name)) ∧
    ("p_".data.isPrefixOf name.data = false →
      "block.".data.isPrefixOf name.data = false →
      (substr "maker".data name.data || substr "taker".data name.data ||
        substr "creator".data name.data ||
        substr "liquidator".data name.data) = true →
      bucketOf name =
        if substr "maker.".data name.data ||
            substr "taker.".data name.data then
          (Bucket.parameters, name)
        else (Bucket.state, name)) ∧
    ("p_".data.isPrefixOf name.data = false →
      "block.".data.isPrefixOf name.data = false →
      (substr "maker".data name.data || substr "taker".data name.data ||
        substr "creator".data name.data ||
        substr "liquidator".data name.data) = false →
      bucketOf name = (.other, name)) ∧
    bucketOf "p_amount" = (.parameters, "amount") ∧
    bucketOf "block.timestamp" = (.state, "block.timestamp") ∧
    bucketOf "maker.balance" = (.parameters, "maker.balance") ∧
    bucketOf "taker.fee" = (.parameters, "taker.fee") ∧
    bucketOf "creatorShare" = (.state, "creatorShare") ∧
    bucketOf "liquidatorFee" = (.state, "liquidatorFee") ∧
    bucketOf "randomFlag" = (.other, "randomFlag") ∧
    bucketOf "p_liquidator" = (.parameters, "liquidator") :=
  ⟨bucketOf_p_rule name rest, bucketOf_block_rule name rest,
    bucketOf_actor name, bucketOf_other_rule name,
    by decide, by decide, by decide, by decide, by decide, by decide,
    by decide, by decide⟩

/-- Witness for C3, applying each universal rule at a concrete name. -/
theorem c3_bucketing_rules_witness :
    bucketOf "p_x" = (.parameters, "x") ∧
    bucketOf "block.gasPrice" = (.state, "block.gasPrice") ∧
    bucketOf "takerAccount" =
      (if substr "maker.".data ("takerAccount" : String).data ||
          substr "taker.".data ("takerAccount" : String).data then
        (Bucket.parameters, ("takerAccount" : String))
      else (Bucket.state, ("takerAccount" : String))) ∧
    bucketOf "plainValue" = (.other, "plainValue") :=
  ⟨(c3_bucketing_rules "p_x" ['x']).1 rfl,
    (c3_bucketing_rules "block.gasPrice" ("gasPrice" : String).data).2.1 rfl,
    (c3_bucketing_rules "takerAccount" []).2.2.1 (by decide) (by decide)
      (by decide),
    (c3_bucketing_rules "plainValue" []).2.2.2.1 (by decide) (by decide)
      (by decide)⟩

/-- C4: for type tag `bool`, `format_value` returns `"true"` exactly when the
raw value equals 1 and `"false"` for every other value. -/
theorem c4_bool_format (v : Nat) (d : String) :
    format_value v "bool" d = .ok (if v = 1 then "true" else "false") ∧
    format_value 1 "bool" d = .ok "true" ∧
    format_value 0 "bool" d = .ok "false" ∧
    format_value 2 "bool" d = .ok "false" :=
  ⟨rfl, rfl, rfl, rfl⟩

/-- C1 (amended): for `v < 2^32` the `bytes4` branch produces the 0x-prefixed,
zero-padded 8-digit lowercase hex string; with display name `"selector"` the
full 10-character hex string is looked up in the 5-entry table and the result
of the lookup — the table name on a hit, the hex string itself on a miss — is
appended in parentheses. -/
theorem c1_bytes4_selector (v : Nat) (d : String) (hv : v < 2 ^ 32) :
    format_value 0xbb4fc585 "bytes4" "selector" =
      .ok "0xbb4fc585 (openMakerPosition)" ∧
    (d ≠ "selector" → format_value v "bytes4" d = .ok ("0x" ++ pyHexPad 8 v)) ∧
    format_value v "bytes4" "selector" =
      .ok (("0x" ++ pyHexPad 8 v) ++ " (" ++
        ((selectors.lookup ("0x" ++ pyHexPad 8 v)).getD ("0x" ++ pyHexPad 8 v)) ++
        ")") ∧
    ("0x" ++ pyHexPad 8 v).length = 10 ∧
    hexVal (pyHexPad 8 v).data = v := by
  have hlen : (pyHexPad 8 v).length = 8 :=
    pyHexPad_length (by norm_num) (by norm_num at hv ⊢; omega)
  have hdata : (pyHexPad 8 v).data.length = 8 := hlen
  have hdlen : ("0x" ++ pyHexPad 8 v).data.length = 10 := by
    rw [String.data_append, List.length_append, hdata]
    rfl
  refine ⟨rfl, ?_, ?_, ?_, hexVal_pyHexPad 8 v⟩
  · intro hd
    rw [format_value_bytes4, if_neg hd]
  · rw [format_value_bytes4, if_pos rfl, decode_selector_short _ (by omega)]
  · rw [String.length_append, hlen]
    rfl

/-- Witness for C1 at the concrete input `v = 0xdeadbeef`. -/
theorem c1_bytes4_selector_witness :
    (0xdeadbeef : Nat) < 2 ^ 32 ∧
    (format_value 0xbb4fc585 "bytes4" "selector" =
        .ok "0xbb4fc585 (openMakerPosition)" ∧
      ("" ≠ "selector" →
        format_value 0xdeadbeef "bytes4" "" = .ok ("0x" ++ pyHexPad 8 0xdeadbeef)) ∧
      format_value 0xdeadbeef "bytes4" "selector" =
        .ok (("0x" ++ pyHexPad 8 0xdeadbeef) ++ " (" ++
          ((selectors.lookup ("0x" ++ pyHexPad 8 0xdeadbeef)).getD
            ("0x" ++ pyHexPad 8 0xdeadbeef)) ++ ")") ∧
      ("0x" ++ pyHexPad 8 0xdeadbeef).length = 10 ∧
      hexVal (pyHexPad 8 0xdeadbeef).data = 0xdeadbeef) :=
  ⟨by norm_num, c1_bytes4_selector 0xdeadbeef "" (by norm_num)⟩

/-- Counterexample to C1 as stated: on a table miss with display name
`"selector"`, the hex string is not returned unchanged; the code appends the
hex string itself in parentheses. -/
theorem c1_miss_counterexample :
    format_value 0xdeadbeef "bytes4" "selector" =
      .ok "0xdeadbeef (0xdeadbeef)" ∧
    format_value 0xdeadbeef "bytes4" "selector" ≠ .ok "0xdeadbeef" := by
  have h1 : format_value 0xdeadbeef "bytes4" "selector" =
      .ok "0xdeadbeef (0xdeadbeef)" := rfl
  refine ⟨h1, ?_⟩
  rw [h1]
  intro h
  exact absurd (Except.ok.inj h) (by decide)

theorem string_mk_ne_of_head (c : Char) (l : List Char) (s : String)
    (h : s.data.head? ≠ some c) : String.mk (c :: l) ≠ s := by
  intro he
  subst he
  exact h rfl

theorem substr_uint_eq_false (l : List Char) :
    (∀ c ∈ l, c ≠ 'u') → substr "uint".data l = false := by
  show (∀ c ∈ l, c ≠ 'u') → substr ['u', 'i', 'n', 't'] l = false
  induction l with
  | nil => intro _; rfl
  | cons c t ih =>
    intro h
    have hc : c ≠ 'u' := h c (List.mem_cons_self c t)
    have hpre : List.isPrefixOf ['u', 'i', 'n', 't'] (c :: t) = false := by
      show (('u' == c) && List.isPrefixOf ['i', 'n', 't'] t) = false
      rw [beq_eq_false_iff_ne.mpr (Ne.symm hc), Bool.false_and]
    rw [substr, hpre, Bool.false_or]
    exact ih fun x hx => h x (List.mem_cons_of_mem c hx)

theorem digit_ne_u {c : Char} (h : c.isDigit = true) : c ≠ 'u' := by
  intro hc
  rw [hc] at h
  exact absurd h (by decide)

theorem substr_int_head (ds : List Char) :
    substr "int".data ('i' :: 'n' :: 't' :: ds) = true := by
  show substr ['i', 'n', 't'] ('i' :: 'n' :: 't' :: ds) = true
  rw [substr]
  have : List.isPrefixOf ['i', 'n', 't'] ('i' :: 'n' :: 't' :: ds) = true := by
    simp [List.isPrefixOf]
  rw [this, Bool.true_or]

theorem removeInt_of_digits (l : List Char) :
    (∀ c ∈ l, c.isDigit = true) → removeInt l = l := by
  induction l with
  | nil => intro _; rfl
  | cons c1 t ih =>
    intro h
    have hc1 : c1 ≠ 'i' := by
      intro hci
      have hd := h c1 (List.mem_cons_self c1 t)
      rw [hci] at hd
      exact absurd hd (by decide)
    rcases t with _ | ⟨c2, t2⟩
    · rfl
    rcases t2 with _ | ⟨c3, t3⟩
    · rfl
    rw [removeInt, if_neg (by intro hand; exact hc1 hand.1)]
    rw [ih fun x hx => h x (List.mem_cons_of_mem c1 hx)]

theorem pyWs_eq_false_of_isDigit {c : Char} (h : c.isDigit = true) :
    pyWs c = false := by
  cases hw : pyWs c with
  | false => rfl
  | true =>
    exfalso
    have hmem : c ∈ ([' ', '\t', '\n', '\r', '\x0b', '\x0c'] : List Char) := by
      simpa [pyWs] using hw
    fin_cases hmem <;> exact absurd h (by decide)

theorem dropWhile_eq_self_of_none (l : List Char) (p : Char → Bool)
    (h : ∀ c ∈ l, p c = false) : l.dropWhile p = l := by
  cases l with
  | nil => rfl
  | cons c t =>
    rw [List.dropWhile_cons, h c (List.mem_cons_self c t)]
    simp

theorem stripWs_eq_self (l : List Char) (h : ∀ c ∈ l, pyWs c = false) :
    stripWs l = l := by
  unfold stripWs
  rw [dropWhile_eq_self_of_none l _ h,
    dropWhile_eq_self_of_none l.reverse _
      (fun c hc => h c (List.mem_reverse.mp hc)),
    List.reverse_reverse]

theorem usDigits_of_digits (l : List Char) :
    l ≠ [] → (∀ c ∈ l, c.isDigit = true) → usDigits l = true := by
  induction l with
  | nil => intro hne _; exact absurd rfl hne
  | cons c t ih =>
    intro _ h
    rcases t with _ | ⟨c2, t2⟩
    · show usDigits [c] = true
      rw [usDigits]
      exact h c (List.mem_cons_self c [])
    · have hc2 : c2 ≠ '_' := by
        intro he
        have hd := h c2 (by simp)
        rw [he] at hd
        exact absurd hd (by decide)
      rw [usDigits, if_neg hc2, h c (List.mem_cons_self c (c2 :: t2)),
        Bool.true_and]
      exact ih (by simp) fun x hx => h x (List.mem_cons_of_mem c hx)

theorem filter_underscore_of_digits (l : List Char)
    (h : ∀ c ∈ l, c.isDigit = true) :
    (l.filter fun x => x != '_') = l := by
  apply List.filter_eq_self.mpr
  intro a ha
  have hd := h a ha
  have hne : a ≠ '_' := by
    intro he
    rw [he] at hd
    exact absurd hd (by decide)
  simpa [bne_iff_ne] using hne

theorem pyInt_digits (l : List Char) (hne : l ≠ [])
    (h : ∀ c ∈ l, c.isDigit = true) :
    pyInt? (String.mk l) = some (decValue l : Int) := by
  have hstrip : stripWs l = l :=
    stripWs_eq_self l fun c hc => pyWs_eq_false_of_isDigit (h c hc)
  show pyIntCore (stripWs l) = some (decValue l : Int)
  rw [hstrip]
  rcases l with _ | ⟨c, t⟩
  · exact absurd rfl hne
  have hcd := h c (List.mem_cons_self c t)
  have hm : c ≠ '-' := by
    intro hc; rw [hc] at hcd; exact absurd hcd (by decide)
  have hp : c ≠ '+' := by
    intro hc; rw [hc] at hcd; exact absurd hcd (by decide)
  have hus : usDigits (c :: t) = true := usDigits_of_digits (c :: t) (by simp) h
  rw [pyIntCore, if_neg hm, if_neg hp, if_pos hus,
    filter_underscore_of_digits (c :: t) h]

/-- Reduction of `format_value` to its signed-integer branch: once the tag is
none of the four exact tags, does not contain `uint`, and contains `int`, the
result is fully determined by parsing the tag with `"int"` removed. -/
theorem format_value_int_branch (v : Nat) (tag d : String)
    (h1 : tag ≠ "address") (h2 : tag ≠ "bytes32") (h3 : tag ≠ "bytes4")
    (h4 : tag ≠ "bool") (h5 : substr "uint".data tag.data = false)
    (h6 : substr "int".data tag.data = true) :
    format_value v tag d =
      match pyInt? (String.mk (removeInt tag.data)) with
      | none => .error intParseError
      | some bit_size =>
        if bit_size < 0 then
          if v = 0 then .ok "0" else .error floatNotModelled
        else
          if 2 ^ (bit_size.toNat - 1) ≤ v then
            .ok (Int.repr ((v : Int) - 2 ^ bit_size.toNat))
          else .ok (Nat.repr v) := by
  unfold format_value
  rw [if_neg h1, if_neg h2, if_neg h3, if_neg h4]
  simp only [h5, h6]
  simp

/-- C2: for a type tag `int` followed by a decimal width `w` and a raw value
`v < 2^w`, the result is the decimal string of `v - 2^w` when
`v >= 2^(w-1)` and of `v` otherwise; in particular `int256` maps `2^256 - 1`
to `"-1"` and `2^255` to the decimal string of `-(2^255)`. -/
theorem c2_signed_int_decode (ds : List Char) (w v : Nat) (d : String)
    (hne : ds ≠ []) (hdig : ∀ c ∈ ds, c.isDigit = true)
    (hw : decValue ds = w) (_hv : v < 2 ^ w) :
    format_value v (String.mk ('i' :: 'n' :: 't' :: ds)) d =
      (if 2 ^ (w - 1) ≤ v then .ok (Int.repr ((v : Int) - 2 ^ w))
       else .ok (Nat.repr v)) ∧
    format_value (2 ^ 256 - 1) "int256" d = .ok "-1" ∧
    format_value (2 ^ 255) "int256" d = .ok (Int.repr (-(2 ^ 255 : Int))) := by
  refine ⟨?_, rfl, rfl⟩
  have hnu : ∀ c ∈ 'i' :: 'n' :: 't' :: ds, c ≠ 'u' := by
    intro c hc
    simp only [List.mem_cons] at hc
    rcases hc with rfl | rfl | rfl | hmem
    · decide
    · decide
    · decide
    · exact digit_ne_u (hdig c hmem)
  have hrem : removeInt ('i' :: 'n' :: 't' :: ds) = ds := by
    rw [removeInt, if_pos ⟨rfl, rfl, rfl⟩]
    exact removeInt_of_digits ds hdig
  rw [format_value_int_branch v (String.mk ('i' :: 'n' :: 't' :: ds)) d
    (string_mk_ne_of_head _ _ _ (by decide))
    (string_mk_ne_of_head _ _ _ (by decide))
    (string_mk_ne_of_head _ _ _ (by decide))
    (string_mk_ne_of_head _ _ _ (by decide))
    (substr_uint_eq_false _ hnu)
    (substr_int_head ds)]
  have hparse :
      pyInt? (String.mk (removeInt (String.mk ('i' :: 'n' :: 't' :: ds)).data)) =
        some (w : Int) := by
    show pyInt? (String.mk (removeInt ('i' :: 'n' :: 't' :: ds))) = some (w : Int)
    rw [hrem, pyInt_digits ds hne hdig, hw]
  rw [hparse]
  show (if (w : Int) < 0 then
      (if v = 0 then Except.ok "0" else Except.error floatNotModelled)
    else if 2 ^ ((w : Int).toNat - 1) ≤ v then
      Except.ok (Int.repr ((v : Int) - 2 ^ (w : Int).toNat))
    else Except.ok (Nat.repr v)) = _
  rw [if_neg (by omega : ¬ ((w : Int) < 0))]
  rw [Int.toNat_natCast]

/-- Witness for C2 at the concrete tag `int8` and value 255. -/
theorem c2_signed_int_decode_witness :
    ((['8'] : List Char) ≠ [] ∧ (∀ c ∈ (['8'] : List Char), c.isDigit = true) ∧
      decValue ['8'] = 8 ∧ 255 < 2 ^ 8) ∧
    (format_value 255 (String.mk ('i' :: 'n' :: 't' :: ['8'])) "" =
        (if 2 ^ (8 - 1) ≤ 255 then .ok (Int.repr ((255 : Int) - 2 ^ 8))
         else .ok (Nat.repr 255)) ∧
      format_value (2 ^ 256 - 1) "int256" "" = .ok "-1" ∧
      format_value (2 ^ 255) "int256" "" = .ok (Int.repr (-(2 ^ 255 : Int)))) :=
  ⟨⟨by decide, by decide, by decide, by decide⟩,
    c2_signed_int_decode ['8'] 8 255 "" (by decide) (by decide) (by decide)
      (by decide)⟩

/-- C5: when the tag matches none of the exact rules, does not contain
`uint`, contains `int`, and the remainder after removing `int` is not a valid
decimal literal, `format_value` fails with the parse error and returns no
fallback value. The final hypothesis restricts the remainder to characters
below code point 128: there `pyInt?` coincides exactly with CPython's
`int()` (sign, PEP 515 underscore grouping, whitespace stripping), so
`pyInt? = none` says precisely that the program raises `ValueError`; the
non-ASCII digits `int()` would additionally accept lie outside the model and
outside this hypothesis class. -/
theorem c5_malformed_width (v : Nat) (tag d : String)
    (h1 : tag ≠ "address") (h2 : tag ≠ "bytes32") (h3 : tag ≠ "bytes4")
    (h4 : tag ≠ "bool") (h5 : substr "uint".data tag.data = false)
    (h6 : substr "int".data tag.data = true)
    (h7 : pyInt? (String.mk (removeInt tag.data)) = none)
    (_h8 : ∀ c ∈ removeInt tag.data, c.toNat < 128) :
    format_value v tag d = .error intParseError := by
  rw [format_value_int_branch v tag d h1 h2 h3 h4 h5 h6, h7]

/-- Witness for C5 at the concrete tag `"int"`. -/
theorem c5_malformed_width_witness :
    (("int" : String) ≠ "address" ∧ ("int" : String) ≠ "bytes32" ∧
      ("int" : String) ≠ "bytes4" ∧ ("int" : String) ≠ "bool" ∧
      substr "uint".data ("int" : String).data = false ∧
      substr "int".data ("int" : String).data = true ∧
      pyInt? (String.mk (removeInt ("int" : String).data)) = none ∧
      (∀ c ∈ removeInt ("int" : String).data, c.toNat < 128)) ∧
    format_value 0 "int" "" = .error intParseError :=
  ⟨⟨by decide, by decide, by decide, by decide, by decide, by decide, by decide,
      by decide⟩,
    c5_malformed_width 0 "int" "" (by decide) (by decide) (by decide)
      (by decide) (by decide) (by decide) (by decide) (by decide)⟩

/-- C10: the `int` branch never reduces the raw value modulo `2^w`; `2^w` is
subtracted exactly once whenever `v >= 2^(w-1)`, so a raw value at or above
`2^w` yields a decimal string outside the signed range, e.g. `3 * 2^255`
under `int256` prints as `2^255`. -/
theorem c10_no_modular_reduction (v : Nat) (d : String) (hv : 2 ^ 255 ≤ v) :
    format_value v "int256" d = .ok (Int.repr ((v : Int) - 2 ^ 256)) ∧
    format_value (3 * 2 ^ 255) "int256" d = .ok (Nat.repr (2 ^ 255)) := by
  refine ⟨?_, rfl⟩
  rw [format_value_int_branch v "int256" d (by decide) (by decide) (by decide)
    (by decide) (by decide) (by decide)]
  have hparse : pyInt? (String.mk (removeInt ("int256" : String).data)) =
      some (256 : Int) := by decide
  rw [hparse]
  show (if (256 : Int) < 0 then
      (if v = 0 then Except.ok "0" else Except.error floatNotModelled)
    else if 2 ^ ((256 : Int).toNat - 1) ≤ v then
      Except.ok (Int.repr ((v : Int) - 2 ^ (256 : Int).toNat))
    else Except.ok (Nat.repr v)) = _
  rw [if_neg (by norm_num : ¬ ((256 : Int) < 0))]
  have hv' : 2 ^ ((256 : Int).toNat - 1) ≤ v := hv
  rw [if_pos hv']
  rfl

/-- Witness for C10 at the concrete input `v = 2^255`. -/
theorem c10_no_modular_reduction_witness :
    (2 : Nat) ^ 255 ≤ 2 ^ 255 ∧
    (format_value (2 ^ 255) "int256" "x" =
        .ok (Int.repr (((2 ^ 255 : Nat) : Int) - 2 ^ 256)) ∧
      format_value (3 * 2 ^ 255) "int256" "x" = .ok (Nat.repr (2 ^ 255))) :=
  ⟨le_refl _, c10_no_modular_reduction (2 ^ 255) "x" (le_refl _)⟩

/-- C7: on a minimal report with one contract, one test and zero models, the
output contains the contract name, the test name and the elapsed-time field,
and no Counterexamples section. -/
theorem c7_minimal_report :
    runOk reportC7 = true ∧
    containsStr "ExampleContract" (outputOf reportC7) = true ∧
    containsStr "test_alpha" (outputOf reportC7) = true ∧
    containsStr "Time: [3, 4, 5]s" (outputOf reportC7) = true ∧
    containsStr "\nCounterexamples:\n" (outputOf reportC7) = false := by
  decide

/-- C8: an entry with every expected key missing defaults to the internal
variable name, type `unknown` and value 0, is still formatted (as `"0"`) and
bucketed, and the run does not fail. -/
theorem c8_missing_key_defaults (n : String) :
    extractVar n ⟨none, none, none⟩ = (n, "unknown", 0) ∧
    format_value 0 "unknown" n = .ok "0" ∧
    runOk reportC8 = true ∧
    containsStr "foo = 0 (unknown)" (outputOf reportC8) = true :=
  ⟨rfl, rfl, by decide, by decide⟩

/-- C9: an invalid or unflagged model produces no output but still advances
the 1-based enumeration index, so the printed indices can skip values, while
the Counterexamples header is printed whenever the counterexample count is
positive and the models sequence is present, even if every model is
invalid. -/
theorem c9_invalid_model_handling (i : Nat) (m : Model) (rest : List Model)
    (hinv : m.is_valid.getD false = false) :
    modelsLoop i (m :: rest) = modelsLoop (i + 1) rest ∧
    containsStr "\nCounterexamples:\n" (outputOf reportC9) = true ∧
    containsStr "[2]" (outputOf reportC9) = true ∧
    containsStr "[1]" (outputOf reportC9) = false ∧
    containsStr "ghostVar" (outputOf reportC9) = false ∧
    containsStr "v1 = 7 (uint256)" (outputOf reportC9) = true ∧
    containsStr "\nCounterexamples:\n" (outputOf reportC9b) = true ∧
    containsStr "[1]" (outputOf reportC9b) = false := by
  refine ⟨?_, by decide, by decide, by decide, by decide, by decide, by decide,
    by decide⟩
  rw [modelsLoop, hinv]
  rfl

/-- Witness for C9 at the concrete invalid model of `reportC9`. -/
theorem c9_invalid_model_handling_witness :
    invalidModel.is_valid.getD false = false ∧
    (modelsLoop 1 [invalidModel] = modelsLoop 2 [] ∧
      containsStr "\nCounterexamples:\n" (outputOf reportC9) = true ∧
      containsStr "[2]" (outputOf reportC9) = true ∧
      containsStr "[1]" (outputOf reportC9) = false ∧
      containsStr "ghostVar" (outputOf reportC9) = false ∧
      containsStr "v1 = 7 (uint256)" (outputOf reportC9) = true ∧
      containsStr "\nCounterexamples:\n" (outputOf reportC9b) = true ∧
      containsStr "[1]" (outputOf reportC9b) = false) :=
  ⟨by decide, c9_invalid_model_handling 1 invalidModel [] (by decide)⟩

end AnalyzeOut
